import Mathlib

/-!
Verification model of the `cline-ext` repository's two core engines:

* the Approval Decision Engine (`src/src/core/approval/ApprovalOracle.ts`),
  embedded in namespace `ApprovalOracle`;
* the Iterative Orchestration State Machine
  (`src/cline-extended/src/core/architect/ArchitectOrchestrator.ts`),
  embedded in namespace `ArchitectOrchestrator`.

JavaScript regular expressions used by the oracle's fast-path rule lists are
embedded via a small executable regular-expression AST (`Regex`) together with
a fuel-indexed backtracking matcher (`reM`).  Every source regex starts with
`^`, so `Regex.test` implements a match anchored at the start of the string
(the leading `^` of each source pattern is dropped in the translation, and a
trailing or embedded `$` becomes the `endA` atom).  JavaScript `.` does not
match line terminators; `anyc` mirrors that.  The fuel passed by `Regex.test`
is large enough for every backtracking path of the patterns in this file.
-/

/-- Regular-expression AST covering the constructs used by the source's
pattern lists: literals, `.`, character classes (with ranges and negation),
concatenation, alternation, Kleene star and the `$` end anchor. -/
inductive Regex where
  | eps : Regex
  | chr : Char → Regex
  | anyc : Regex
  | cls : Bool → List (Char × Char) → Regex
  | seq : Regex → Regex → Regex
  | alt : Regex → Regex → Regex
  | star : Regex → Regex
  | endA : Regex
deriving Repr, DecidableEq

namespace Regex

/-- `r+` as in JavaScript: one occurrence followed by a star. -/
def plus (r : Regex) : Regex := .seq r (.star r)

/-- A string literal, as a sequence of single-character regexes. -/
def rstr (s : String) : Regex := s.data.foldr (fun c r => .seq (.chr c) r) .eps

/-- Sequence of regexes (left to right). -/
def rseq (l : List Regex) : Regex := l.foldr .seq .eps

/-- Alternation of a list of regexes, tried left to right as in the source. -/
def ralt : List Regex → Regex
  | [] => .cls false []
  | r :: rs => rs.foldl .alt r

/-- Alternation of string literals, e.g. `(install|ci|run)`. -/
def rstrs (l : List String) : Regex := ralt (l.map rstr)

/-- `.*` -/
def dotStar : Regex := .star .anyc

/-- JavaScript line terminators, which `.` does not match. -/
def isLineTerm (c : Char) : Bool :=
  c = '\n' || c = '\r' || c = '\u2028' || c = '\u2029'

/-- Character-class membership over a list of (inclusive) ranges. -/
def clsMatch (ranges : List (Char × Char)) (c : Char) : Bool :=
  ranges.any (fun p => decide (p.1 ≤ c) && decide (c ≤ p.2))

/-- Size of a regex, used only to compute a sufficient fuel bound. -/
def size : Regex → Nat
  | .eps => 1
  | .chr _ => 1
  | .anyc => 1
  | .cls _ _ => 1
  | .seq a b => size a + size b + 1
  | .alt a b => size a + size b + 1
  | .star r => size r + 1
  | .endA => 1

end Regex

/-- Fuel-indexed backtracking matcher in continuation-passing style.
`reM fuel r s k` is true when some prefix `p` of `s` matches `r` and the
continuation `k` accepts the remaining suffix.  A star never repeats an
empty match (mirroring the fact that a JavaScript star makes progress on
each repetition).  `fuel` bounds the call depth; `Regex.test` supplies a
value large enough that it is never exhausted for the patterns used here. -/
def reM : Nat → Regex → List Char → (List Char → Bool) → Bool
  | 0, _, _, _ => false
  | fuel + 1, r, s, k =>
    match r with
    | .eps => k s
    | .chr c =>
      match s with
      | [] => false
      | a :: rest => a == c && k rest
    | .anyc =>
      match s with
      | [] => false
      | a :: rest => !Regex.isLineTerm a && k rest
    | .cls neg ranges =>
      match s with
      | [] => false
      | a :: rest => (Regex.clsMatch ranges a != neg) && k rest
    | .seq r1 r2 => reM fuel r1 s (fun s2 => reM fuel r2 s2 k)
    | .alt r1 r2 => reM fuel r1 s k || reM fuel r2 s k
    | .star r1 =>
      k s ||
        reM fuel r1 s (fun s2 =>
          decide (s2.length < s.length) && reM fuel (.star r1) s2 k)
    | .endA => s.isEmpty && k s

/-- Anchored-at-start match of a regex against a string, as performed by
`re.test(s)` for a source pattern beginning with `^`. -/
def Regex.test (r : Regex) (s : String) : Bool :=
  reM ((r.size + 2) * (s.data.length + 2)) r s.data (fun _ => true)

/-- ASCII lower-casing of one character (models the effect of JavaScript's
case-insensitive flag on the ASCII patterns used by the source). -/
def lowerChar (c : Char) : Char :=
  if decide ('A' ≤ c) && decide (c ≤ 'Z') then Char.ofNat (c.toNat + 32) else c

/-- ASCII lower-casing of a string. -/
def lowerStr (s : String) : String := String.mk (s.data.map lowerChar)

/-- A compiled fast-path matcher: a regex plus its case-insensitivity flag.
For an `/i` pattern the translation writes its literals in lower case and
`Matcher.test` lower-cases the input. -/
structure Matcher where
  re : Regex
  icase : Bool := false
deriving Repr, DecidableEq

/-- `m.test s`: how the oracle evaluates one fast-path pattern on a string. -/
def Matcher.test (m : Matcher) (s : String) : Bool :=
  m.re.test (if m.icase then lowerStr s else s)

namespace ApprovalOracle

open Regex (rstr rseq ralt rstrs dotStar)

/-- A case-sensitive matcher. -/
def M (r : Regex) : Matcher := ⟨r, false⟩

/-- A case-insensitive (`/i`) matcher; its literals are written lower-case. -/
def Mi (r : Regex) : Matcher := ⟨r, true⟩

/-- The ASCII letter class `[a-zA-Z]`. -/
def letterCls : Regex := .cls false [('a', 'z'), ('A', 'Z')]

/-- The extension alternation of the source's safe-file-extension pattern. -/
def safeExts : List String :=
  ["ts", "js", "tsx", "jsx", "py", "rb", "go", "rs", "java", "kt", "swift",
   "c", "cpp", "h", "hpp", "md", "json", "yaml", "yml", "toml", "css", "scss",
   "less", "html", "xml", "sql", "sh", "bash", "zsh", "fish", "ps1",
   "dockerfile", "makefile", "txt", "csv", "env.example"]

/-- `ApprovalOracle.INSTANT_ALLOW` (source lines 10-123), in source order.
Each entry is the translation of one JavaScript regex literal, with the
leading `^` dropped (matching is anchored at the start) and `$` rendered as
`Regex.endA`. -/
def INSTANT_ALLOW : List Matcher := [
  -- /^read:/
  M (rstr "read:"),
  -- /^write:.*\.(ts|js|...|env\.example)$/i
  Mi (rseq [rstr "write:", dotStar, .chr '.', rstrs safeExts, .endA]),
  -- /^write:.*\/src\//  and the analogous directory patterns
  M (rseq [rstr "write:", dotStar, rstr "/src/"]),
  M (rseq [rstr "write:", dotStar, rstr "/lib/"]),
  M (rseq [rstr "write:", dotStar, rstr "/test/"]),
  M (rseq [rstr "write:", dotStar, rstr "/tests/"]),
  M (rseq [rstr "write:", dotStar, rstr "/spec/"]),
  M (rseq [rstr "write:", dotStar, rstr "/components/"]),
  M (rseq [rstr "write:", dotStar, rstr "/pages/"]),
  M (rseq [rstr "write:", dotStar, rstr "/app/"]),
  M (rseq [rstr "write:", dotStar, rstr "/public/"]),
  M (rseq [rstr "write:", dotStar, rstr "/assets/"]),
  M (rseq [rstr "write:", dotStar, rstr "/styles/"]),
  M (rseq [rstr "write:", dotStar, rstr "/utils/"]),
  M (rseq [rstr "write:", dotStar, rstr "/hooks/"]),
  M (rseq [rstr "write:", dotStar, rstr "/services/"]),
  M (rseq [rstr "write:", dotStar, rstr "/api/"]),
  M (rseq [rstr "write:", dotStar, rstr "/models/"]),
  M (rseq [rstr "write:", dotStar, rstr "/types/"]),
  M (rseq [rstr "write:", dotStar, rstr "/interfaces/"]),
  M (rseq [rstr "write:", dotStar, rstr "/contracts/"]),
  M (rseq [rstr "write:", dotStar, rstr "/.cline/"]),
  -- /^execute:npm (install|ci|run|test|build|start|lint|format|typecheck|dev|preview)/
  M (rseq [rstr "execute:npm ",
           rstrs ["install", "ci", "run", "test", "build", "start", "lint",
                  "format", "typecheck", "dev", "preview"]]),
  M (rstr "execute:npx "),
  M (rstr "execute:yarn "),
  M (rstr "execute:pnpm "),
  M (rstr "execute:bun "),
  M (rstr "execute:deno "),
  -- /^execute:cargo (build|run|test|check|clippy|fmt|add|remove)/
  M (rseq [rstr "execute:cargo ",
           rstrs ["build", "run", "test", "check", "clippy", "fmt", "add",
                  "remove"]]),
  -- /^execute:go (build|run|test|mod|get|fmt|vet)/
  M (rseq [rstr "execute:go ",
           rstrs ["build", "run", "test", "mod", "get", "fmt", "vet"]]),
  M (rstr "execute:pip install"),
  M (rstr "execute:pip3 install"),
  M (rstr "execute:python "),
  M (rstr "execute:python3 "),
  M (rstr "execute:ruby "),
  M (rstr "execute:bundle "),
  M (rstr "execute:gem install"),
  M (rstr "execute:mix "),
  M (rstr "execute:elixir "),
  M (rstr "execute:dotnet "),
  M (rstr "execute:mvn "),
  M (rstr "execute:gradle "),
  -- /^execute:make($| )/
  M (rseq [rstr "execute:make", ralt [.endA, .chr ' ']]),
  M (rstr "execute:cmake "),
  -- /^execute:git (status|diff|...|reflog)/
  M (rseq [rstr "execute:git ",
           rstrs ["status", "diff", "log", "branch", "checkout", "add",
                  "commit", "push", "pull", "fetch", "stash", "rebase",
                  "merge", "clone", "init", "remote", "tag", "show", "blame",
                  "reflog"]]),
  M (rstr "execute:ls"),
  M (rstr "execute:ll"),
  M (rstr "execute:la"),
  M (rstr "execute:cat "),
  M (rstr "execute:head "),
  M (rstr "execute:tail "),
  M (rstr "execute:less "),
  M (rstr "execute:more "),
  M (rstr "execute:grep "),
  M (rstr "execute:find "),
  M (rstr "execute:echo "),
  M (rstr "execute:printf "),
  M (rstr "execute:mkdir "),
  M (rstr "execute:touch "),
  M (rstr "execute:cp "),
  M (rstr "execute:mv "),
  M (rstr "execute:cd "),
  M (rstr "execute:pwd"),
  M (rstr "execute:which "),
  M (rstr "execute:where "),
  M (rstr "execute:whoami"),
  M (rstr "execute:date"),
  M (rstr "execute:time "),
  M (rstr "execute:wc "),
  M (rstr "execute:sort "),
  M (rstr "execute:uniq "),
  M (rstr "execute:sed "),
  M (rstr "execute:awk "),
  M (rstr "execute:cut "),
  M (rstr "execute:tr "),
  M (rstr "execute:tee "),
  M (rstr "execute:xargs "),
  -- /^execute:env($| )/
  M (rseq [rstr "execute:env", ralt [.endA, .chr ' ']]),
  M (rstr "execute:export "),
  M (rstr "execute:source "),
  M (rstr "execute:node "),
  M (rstr "execute:ts-node "),
  M (rstr "execute:tsx "),
  M (rstr "execute:esbuild "),
  -- /^execute:tsc($| )/
  M (rseq [rstr "execute:tsc", ralt [.endA, .chr ' ']]),
  M (rstr "execute:eslint "),
  M (rstr "execute:prettier "),
  M (rstr "execute:jest "),
  M (rstr "execute:vitest "),
  M (rstr "execute:mocha "),
  M (rstr "execute:pytest "),
  M (rstr "execute:rspec "),
  M (rstr "execute:phpunit "),
  -- /^execute:docker (build|run|...|compose)/
  M (rseq [rstr "execute:docker ",
           rstrs ["build", "run", "ps", "images", "logs", "exec", "stop",
                  "start", "restart", "pull", "push", "compose"]]),
  M (rstr "execute:docker-compose "),
  -- /^execute:kubectl (get|describe|logs|apply|delete|exec|port-forward)/
  M (rseq [rstr "execute:kubectl ",
           rstrs ["get", "describe", "logs", "apply", "delete", "exec",
                  "port-forward"]]),
  -- /^execute:terraform (init|plan|apply|destroy|validate|fmt)/
  M (rseq [rstr "execute:terraform ",
           rstrs ["init", "plan", "apply", "destroy", "validate", "fmt"]]),
  -- /^execute:curl .* localhost/
  M (rseq [rstr "execute:curl ", dotStar, rstr " localhost"]),
  -- /^execute:curl .* 127\.0\.0\.1/
  M (rseq [rstr "execute:curl ", dotStar, rstr " 127.0.0.1"]),
  -- /^execute:wget .* localhost/
  M (rseq [rstr "execute:wget ", dotStar, rstr " localhost"]),
  M (rstr "execute:http "),
  M (rstr "browser:localhost"),
  M (rstr "browser:127.0.0.1"),
  M (rstr "browser:file://"),
  -- Windows-specific safe commands
  -- /^execute:dir($| )/
  M (rseq [rstr "execute:dir", ralt [.endA, .chr ' ']]),
  M (rstr "execute:type "),
  M (rstr "execute:copy "),
  M (rstr "execute:move "),
  M (rstr "execute:md "),
  M (rstr "execute:rd "),
  -- /^execute:set($| )/
  M (rseq [rstr "execute:set", ralt [.endA, .chr ' ']])]

/-- `ApprovalOracle.INSTANT_DENY` (source lines 125-204), in source order. -/
def INSTANT_DENY : List Matcher := [
  -- Catastrophic file operations
  M (rseq [rstr "execute:rm -rf /", .endA]),
  M (rseq [rstr "execute:rm -rf /*", .endA]),
  M (rseq [rstr "execute:rm -rf ~", .endA]),
  M (rseq [rstr "execute:rm -rf ~/*", .endA]),
  M (rstr "execute:rm -rf ../"),
  -- /^execute:dd if=.*of=\/dev\//
  M (rseq [rstr "execute:dd if=", dotStar, rstr "of=/dev/"]),
  M (rstr "execute:mkfs."),
  M (rstr "execute:fdisk "),
  M (rstr "execute:parted "),
  -- Windows catastrophic
  -- /^execute:rd \/s \/q [a-zA-Z]:\\$/
  M (rseq [rstr "execute:rd /s /q ", letterCls, rstr ":\\", .endA]),
  M (rseq [rstr "execute:del /f /s /q ", letterCls, rstr ":\\", .endA]),
  -- /^execute:format [a-zA-Z]:/
  M (rseq [rstr "execute:format ", letterCls, .chr ':']),
  M (rstr "execute:diskpart"),
  -- System modification: /^execute:.*>\/etc\// and friends
  M (rseq [rstr "execute:", dotStar, rstr ">/etc/"]),
  M (rseq [rstr "execute:", dotStar, rstr ">/usr/"]),
  M (rseq [rstr "execute:", dotStar, rstr ">/bin/"]),
  M (rseq [rstr "execute:", dotStar, rstr ">/sbin/"]),
  M (rseq [rstr "execute:", dotStar, rstr ">/boot/"]),
  M (rseq [rstr "execute:", dotStar, rstr ">/sys/"]),
  M (rseq [rstr "execute:", dotStar, rstr ">/proc/"]),
  M (rstr "write:/etc/"),
  M (rstr "write:/usr/"),
  M (rstr "write:/bin/"),
  M (rstr "write:/sbin/"),
  M (rstr "write:/boot/"),
  -- System paths (Windows), all /i
  Mi (rseq [rstr "write:", letterCls, rstr ":\\windows\\"]),
  Mi (rseq [rstr "write:", letterCls, rstr ":\\program files"]),
  Mi (rseq [rstr "write:", letterCls, rstr ":\\system"]),
  -- Credential/secret files
  M (rseq [rstr "write:", dotStar, rstr "/.env", .endA]),
  M (rseq [rstr "write:", dotStar, rstr "/.env.local", .endA]),
  M (rseq [rstr "write:", dotStar, rstr "/.env.production", .endA]),
  M (rseq [rstr "write:", dotStar, rstr "/.ssh/"]),
  M (rseq [rstr "write:", dotStar, rstr "/.aws/"]),
  M (rseq [rstr "write:", dotStar, rstr "/.gcp/"]),
  M (rseq [rstr "write:", dotStar, rstr "/.azure/"]),
  -- /^write:.*\/credentials/i and /^write:.*\/secrets/i
  Mi (rseq [rstr "write:", dotStar, rstr "/credentials"]),
  Mi (rseq [rstr "write:", dotStar, rstr "/secrets"]),
  M (rseq [rstr "write:", dotStar, rstr "/.netrc", .endA]),
  M (rseq [rstr "write:", dotStar, rstr "/.npmrc", .endA]),
  M (rseq [rstr "write:", dotStar, rstr "/.pypirc", .endA]),
  -- Dangerous patterns
  M (rseq [rstr "execute:curl", dotStar, .chr '|', dotStar, rstr "sh", .endA]),
  M (rseq [rstr "execute:curl", dotStar, .chr '|', dotStar, rstr "bash", .endA]),
  M (rseq [rstr "execute:wget", dotStar, .chr '|', dotStar, rstr "sh", .endA]),
  M (rseq [rstr "execute:wget", dotStar, .chr '|', dotStar, rstr "bash", .endA]),
  Mi (rseq [rstr "execute:powershell", dotStar, rstr "-enc"]),
  Mi (rseq [rstr "execute:powershell", dotStar, rstr "downloadstring"]),
  M (rstr "execute:chmod 777"),
  M (rstr "execute:chmod -R 777"),
  -- /^execute:chown.*:.*\//
  M (rseq [rstr "execute:chown", dotStar, .chr ':', dotStar, .chr '/']),
  M (rstr "execute:sudo "),
  M (rstr "execute:su "),
  M (rstr "execute:passwd"),
  M (rstr "execute:visudo"),
  Mi (rstr "execute:runas "),
  -- Network exfiltration patterns
  M (rseq [rstr "execute:", dotStar, rstr "| curl"]),
  M (rseq [rstr "execute:", dotStar, rstr "| nc "]),
  M (rseq [rstr "execute:", dotStar, rstr "| netcat"]),
  -- /^execute:scp .* .*@.*:/
  M (rseq [rstr "execute:scp ", dotStar, .chr ' ', dotStar, .chr '@', dotStar, .chr ':']),
  M (rseq [rstr "execute:rsync ", dotStar, .chr ' ', dotStar, .chr '@', dotStar, .chr ':']),
  -- Crypto/wallet
  Mi (rseq [rstr "write:", dotStar, rstr "wallet"]),
  M (rseq [rstr "write:", dotStar, rstr ".key", .endA]),
  M (rseq [rstr "write:", dotStar, rstr ".pem", .endA]),
  Mi (rseq [rstr "write:", dotStar, rstr "private", dotStar, rstr "key"])]

/-- `ApprovalRequest` (shared/architect-types): the `previousDecisions` map is
never read by the oracle and is omitted. -/
structure ApprovalRequest where
  action : String
  target : String
  context : String
deriving Repr, DecidableEq

/-- `ApprovalDecision` (shared/architect-types). `persist` is one of
"once", "session", "always". -/
structure ApprovalDecision where
  allow : Bool
  persist : String
  reasoning : String
deriving Repr, DecidableEq

/-- The oracle's mutable fields: the `persistedRules` map (modelled as an
association list in which the most recent binding for a key shadows older
ones) plus the two matcher lists, which the constructor extends with the
configured custom patterns. -/
structure OracleState where
  persistedRules : List (String × Bool)
  instantDeny : List Matcher
  instantAllow : List Matcher
deriving Repr, DecidableEq

/-- `persistedRules.get(k)` combined with `persistedRules.has(k)`:
`some b` when the key is present with value `b`. -/
def rulesGet (rules : List (String × Bool)) (k : String) : Option Bool :=
  match rules.find? (fun p => p.1 == k) with
  | some p => some p.2
  | none => none

/-- `persistedRules.set(k, v)`. -/
def rulesSet (rules : List (String × Bool)) (k : String) (v : Bool) :
    List (String × Bool) :=
  (k, v) :: rules

/-- The constructor (source lines 206-227) with the custom allow/deny
pattern lists already compiled to matchers: it starts from an empty rule
map and pushes the custom patterns onto the built-in lists. -/
def mkOracle (customAllow customDeny : List Matcher) : OracleState :=
  { persistedRules := []
    instantDeny := INSTANT_DENY ++ customDeny
    instantAllow := INSTANT_ALLOW ++ customAllow }

/-- `request.target.replace(/\\/g, "/")`. -/
def normalizeSlashes (s : String) : String :=
  String.mk (s.data.map (fun c => if c = '\\' then '/' else c))

/-- The literal `action:target` string that the fast-path matchers are
evaluated against (source lines 232-233). -/
def literalOf (req : ApprovalRequest) : String :=
  req.action ++ ":" ++ normalizeSlashes req.target

/-- Split a list at the LAST occurrence of `c`: returns the parts strictly
before and strictly after that occurrence, or `none` when `c` is absent. -/
def lastSplit (c : Char) : List Char → Option (List Char × List Char)
  | [] => none
  | a :: rest =>
    match lastSplit c rest with
    | some (pre, post) => some (a :: pre, post)
    | none => if a = c then some ([], rest) else none

/-- The file extensions recognized by `extractPattern`'s first rewrite
(source line 316), lower-case as written there. -/
def patternExts : List String :=
  ["ts", "js", "tsx", "jsx", "py", "rb", "go", "rs", "java", "kt", "json",
   "yaml", "yml", "md", "css", "html"]

/-- `.replace(/\/[^\/]+\.(ts|...)$/i, "/*.$1")` (non-global).  A match of
this end-anchored pattern must start at the last `/` of the string (nothing
in `[^\/]+\.(...)` can match a `/`), and because no listed extension
contains a dot, the `.` matched by `\.` must be the last dot of the final
segment.  So: if the segment after the last slash has the form
`stem.ext` with a nonempty stem and `ext` (case-insensitively) in the list,
the segment is replaced by `*.ext`, keeping the extension as captured. -/
def extReplace (s : String) : String :=
  match lastSplit '/' s.data with
  | none => s
  | some (pre, seg) =>
    match lastSplit '.' seg with
    | none => s
    | some (stem, ext) =>
      if stem ≠ [] && (lowerStr (String.mk ext) ∈ patternExts) then
        String.mk (pre ++ '/' :: '*' :: '.' :: ext)
      else s

/-- Suffix of a list starting at its first JavaScript line terminator
(everything a `.*` cannot consume). -/
def dropToLineTerm : List Char → List Char
  | [] => []
  | c :: rest => if Regex.isLineTerm c then c :: rest else dropToLineTerm rest

/-- First occurrence of `pat` as a contiguous sublist: returns the part
before the occurrence and the part after it. -/
def findSub (pat : List Char) : List Char → Option (List Char × List Char)
  | [] => if pat.isEmpty then some ([], []) else none
  | c :: rest =>
    if pat.isPrefixOf (c :: rest) then some ([], (c :: rest).drop pat.length)
    else
      match findSub pat rest with
      | some (pre, post) => some (c :: pre, post)
      | none => none

/-- `.replace(/\/<dir>\/.*/, "/<dir>/*")` (non-global): the match starts at
the first occurrence of `/<dir>/` and `.*` consumes greedily up to the next
line terminator (or the end), which the replacement does not touch. -/
def dirReplace (dir : String) (s : String) : String :=
  let pat := ('/' :: dir.data) ++ ['/']
  match findSub pat s.data with
  | none => s
  | some (pre, post) => String.mk (pre ++ pat ++ '*' :: dropToLineTerm post)

/-- Is the head of the list a decimal digit? -/
def startsWithDigit : List Char → Bool
  | d :: _ => d.isDigit
  | [] => false

/-- `.replace(/:\d+/, ":*")` (non-global): the first `:` that is followed by
a digit has its maximal digit run replaced by `*`; the rest is unchanged. -/
def portReplace : List Char → List Char
  | [] => []
  | c :: rest =>
    if c = ':' && startsWithDigit rest then
      ':' :: '*' :: rest.dropWhile Char.isDigit
    else c :: portReplace rest

/-- One-pass scanner for `.replace(/\/\d+/g, "/*")`: when `skipping` is
true the head of the list is inside the digit run of the current match and
digits are dropped; otherwise a `/` followed by a digit starts a new match
(emitting `/*` and entering the digit run), and any other character is
copied. -/
def numSegAux : Bool → List Char → List Char
  | _, [] => []
  | skipping, c :: rest =>
    if skipping && c.isDigit then numSegAux true rest
    else if c = '/' && startsWithDigit rest then '/' :: '*' :: numSegAux true rest
    else c :: numSegAux false rest

/-- `.replace(/\/\d+/g, "/*")` (global): every `/` followed by a digit has
the maximal digit run replaced by `*`; scanning resumes after the match. -/
def numSegReplace (cs : List Char) : List Char := numSegAux false cs

/-- `ApprovalOracle.extractPattern` (source lines 310-330): the chain of
`replace` calls, applied in source order to the request's target, prefixed
with the action. -/
def extractPattern (req : ApprovalRequest) : String :=
  let t := normalizeSlashes req.target
  let t := extReplace t
  let t := dirReplace "node_modules" t
  let t := dirReplace "dist" t
  let t := dirReplace "build" t
  let t := dirReplace ".next" t
  let t := dirReplace "target" t
  let t := dirReplace "vendor" t
  let t := dirReplace "__pycache__" t
  let t := String.mk (portReplace t.data)
  let t := String.mk (numSegReplace t.data)
  req.action ++ ":" ++ t

/-- The fields of the adjudicator's JSON reply that `parseResponse`
inspects after `JSON.parse`.  Each field is `some _` exactly when it is
present with the type the validation code expects (`allow` a boolean,
`persist`/`reasoning` strings); the raw text and fence stripping are
abstracted into this shape. -/
structure RawDecision where
  allow : Option Bool
  persist : Option String
  reasoning : Option String
deriving Repr, DecidableEq

/-- One adjudicator exchange as `askOpus` observes it: either the API call
throws, or it returns a reply whose body parses to `some raw`
(`none` models a body on which `JSON.parse` throws). -/
inductive AdjudicatorCall where
  | error : AdjudicatorCall
  | response : Option RawDecision → AdjudicatorCall
deriving Repr, DecidableEq

/-- `ApprovalOracle.parseResponse` (source lines 332-357): an unparsable
body or a missing/non-boolean `allow` field hits the inner catch and yields
the fail-open "Parse failed" decision; otherwise `persist` is defaulted to
"once" unless it is one of the three scopes, and `reasoning` is defaulted
when it is not a string. -/
def parseResponse (raw : Option RawDecision) : ApprovalDecision :=
  match raw with
  | none => ⟨true, "once", "Parse failed, allowing once"⟩
  | some p =>
    match p.allow with
    | none => ⟨true, "once", "Parse failed, allowing once"⟩
    | some b =>
      ⟨b,
       match p.persist with
       | some q => if q = "once" || q = "session" || q = "always" then q else "once"
       | none => "once",
       p.reasoning.getD "No reason provided"⟩

/-- `ApprovalOracle.askOpus` (source lines 260-308): on an API error the
catch returns the fail-open decision and the state is untouched; otherwise
the parsed decision is cached under the pattern exactly when its
persistence is "always", and returned. -/
def askOpus (st : OracleState) (pattern : String) (call : AdjudicatorCall) :
    ApprovalDecision × OracleState :=
  match call with
  | .error => (⟨true, "once", "API error, allowing once"⟩, st)
  | .response raw =>
    let decision := parseResponse raw
    (decision,
     if decision.persist = "always" then
       { st with persistedRules := rulesSet st.persistedRules pattern decision.allow }
     else st)

/-- What one `decide` call produces: the decision, the oracle state after
the call, and whether the external adjudicator was invoked. -/
structure DecideResult where
  decision : ApprovalDecision
  state : OracleState
  askedAdjudicator : Bool
deriving Repr, DecidableEq

/-- `ApprovalOracle.decide` (source lines 229-258): persisted rules first,
then the deny fast path, then the allow fast path, then adjudicator
escalation.  `call` is the behavior the external adjudicator would exhibit
if consulted during this invocation. -/
def decide (st : OracleState) (req : ApprovalRequest) (call : AdjudicatorCall) :
    DecideResult :=
  let pattern := extractPattern req
  let literal := literalOf req
  match rulesGet st.persistedRules pattern with
  | some b => ⟨⟨b, "always", "Cached rule"⟩, st, false⟩
  | none =>
    if st.instantDeny.any (fun m => m.test literal) then
      ⟨⟨false, "always", "Blocked pattern"⟩,
       { st with persistedRules := rulesSet st.persistedRules pattern false },
       false⟩
    else if st.instantAllow.any (fun m => m.test literal) then
      ⟨⟨true, "always", "Safe pattern"⟩,
       { st with persistedRules := rulesSet st.persistedRules pattern true },
       false⟩
    else
      let r := askOpus st pattern call
      ⟨r.1, r.2, true⟩

end ApprovalOracle

namespace ArchitectOrchestrator

/-- `ArchitectUpdate` (shared/architect-types), restricted to the variants
`run` can yield.  Iteration counts are integers since the configured
`maxIterations` is an arbitrary caller-supplied number. -/
inductive ArchitectUpdate where
  | phase (phase : String) (iteration : Int)
  | thinking (content : String)
  | plan (content : String) (thinking : String)
  | implementation (content : String)
  | evaluation (content : String) (thinking : String)
  | architectureReview (message : String) (options : List String)
  | complete (iterations : Int)
  | maxIterationsReached (iterations : Int)
deriving Repr, DecidableEq

/-- The architecture analyzer as `run` observes it: its `getTypesContext`
result and its `reviewArchitecture` outcome as a function of the
implementation text (at most one advisory update, `none` when no issues
are found). -/
structure AnalyzerEnv where
  typesContext : String
  reviewF : String → Option ArchitectUpdate

/-- The role backends as `run` observes them, as pure response functions:
`planF task context` and `evalF task plan implementation context` return
(content, thinking) as separated by `extractThinkingAndContent`;
`implF plan context` returns the implementation text (the editor's
reasoning blocks are discarded by `extractContent`).  `analyzer` is the
optional architecture analyzer (`none` when not configured). -/
structure RoleEnv where
  planF : String → String → String × String
  implF : String → String → String
  evalF : String → String → String → String → String × String
  analyzer : Option AnalyzerEnv

/-- Whitespace as trimmed from the ends of a string (the ASCII subset of
the JavaScript `trim` character set, which covers the evaluation texts
considered here). -/
def isSpaceChar (c : Char) : Bool :=
  c = ' ' || c = '\t' || c = '\n' || c = '\r' || c = '\x0b' || c = '\x0c'

/-- `s.trim()` over the character list. -/
def trimChars (cs : List Char) : List Char :=
  ((cs.dropWhile isSpaceChar).reverse.dropWhile isSpaceChar).reverse

/-- ASCII upper-casing of one character (the effect of `toUpperCase` on the
texts considered here). -/
def upperChar (c : Char) : Char :=
  if decide ('a' ≤ c) && decide (c ≤ 'z') then Char.ofNat (c.toNat - 32) else c

/-- `ArchitectOrchestrator.isComplete` (source lines 416-419):
`evaluation.trim().toUpperCase().startsWith("APPROVED")`. -/
def isComplete (evaluation : String) : Bool :=
  List.isPrefixOf "APPROVED".data ((trimChars evaluation.data).map upperChar)

/-- `ArchitectOrchestrator.updateContext` (source lines 421-441): the
template literal appending the previous implementation and feedback to the
context. -/
def updateContext (context implementation evaluation : String) : String :=
  context
    ++ "\n\n---\n\n## Previous Iteration\n\n### Implementation Attempt\n"
    ++ implementation
    ++ "\n\n### Architect Feedback\n"
    ++ evaluation
    ++ "\n\n---\n\nAddress the feedback above in the next iteration."

/-- The `if (x.thinking) yield {type: "thinking", ...}` updates: an empty
thinking string is falsy and yields nothing. -/
def thinkingUpdates (t : String) : List ArchitectUpdate :=
  if t = "" then [] else [.thinking t]

/-- The plan produced in one pass of the loop: `architectPlan(task, ctx)`. -/
def planOf (env : RoleEnv) (task ctx : String) : String × String :=
  env.planF task ctx

/-- The implementation produced in one pass:
`editorImplement(plan.content, ctx)`. -/
def implOf (env : RoleEnv) (task ctx : String) : String :=
  env.implF (planOf env task ctx).1 ctx

/-- The evaluation produced in one pass:
`architectEvaluate(task, plan.content, implementation, ctx)`. -/
def evalOf (env : RoleEnv) (task ctx : String) : String × String :=
  env.evalF task (planOf env task ctx).1 (implOf env task ctx) ctx

/-- The optional Phase-2.5 advisory update: nothing when no analyzer is
configured, otherwise whatever `reviewArchitecture(implementation)`
reports. -/
def reviewUpdates (env : RoleEnv) (impl : String) : List ArchitectUpdate :=
  match env.analyzer with
  | none => []
  | some a =>
    match a.reviewF impl with
    | none => []
    | some u => [u]

/-- The updates yielded by one full Planning/Implementing/Evaluating pass
of the `while` body (source lines 95-158), before the convergence check. -/
def cycleUpdates (env : RoleEnv) (task ctx : String) (iter : Int) :
    List ArchitectUpdate :=
  [.phase "planning" iter]
    ++ thinkingUpdates (planOf env task ctx).2
    ++ [.plan (planOf env task ctx).1 (planOf env task ctx).2,
        .phase "implementing" iter,
        .implementation (implOf env task ctx)]
    ++ reviewUpdates env (implOf env task ctx)
    ++ [.phase "evaluating" iter]
    ++ thinkingUpdates (evalOf env task ctx).2
    ++ [.evaluation (evalOf env task ctx).1 (evalOf env task ctx).2]

/-- The context fed to the next iteration after a non-approved evaluation
(source lines 167-172). -/
def nextCtx (env : RoleEnv) (task ctx : String) : String :=
  updateContext ctx (implOf env task ctx) (evalOf env task ctx).1

/-- Everything observable about a finished `run`: the yielded updates in
order, the terminal `state.phase`, and the final `state.currentIteration`. -/
structure RunResult where
  updates : List ArchitectUpdate
  phase : String
  iterations : Int
deriving Repr, DecidableEq

/-- The `while (currentIteration < maxIterations)` loop of `run` (source
lines 92-177).  `fuel` is the number of loop passes still allowed,
`(maxIterations - currentIteration).toNat`; each pass increments `cur` and
decrements `fuel`, so `fuel = 0` is exactly the loop guard failing, upon
which the phase becomes "failed" and the max-iterations update is yielded
with the current iteration count. -/
def runLoop (env : RoleEnv) (task : String) :
    Nat → Int → String → RunResult
  | 0, cur, _ => ⟨[.maxIterationsReached cur], "failed", cur⟩
  | fuel + 1, cur, ctx =>
    let iter := cur + 1
    if isComplete (evalOf env task ctx).1 then
      ⟨cycleUpdates env task ctx iter ++ [.complete iter], "complete", iter⟩
    else
      let rest := runLoop env task fuel iter (nextCtx env task ctx)
      ⟨cycleUpdates env task ctx iter ++ rest.updates, rest.phase,
       rest.iterations⟩

/-- `ArchitectOrchestrator.run` (source lines 80-177): inject the types
context when an analyzer is configured (the empty string is falsy and
injects nothing), then run the iteration loop from iteration 0.  The
`while` guard compares the integer iteration counter against
`maxIterations`, so the loop body runs `maxIterations.toNat` times unless
an evaluation converges first. -/
def run (env : RoleEnv) (task : String) (maxIterations : Int)
    (codebaseContext : String) : RunResult :=
  let ctx :=
    match env.analyzer with
    | some a =>
      if a.typesContext = "" then codebaseContext
      else a.typesContext ++ "\n\n" ++ codebaseContext
    | none => codebaseContext
  runLoop env task maxIterations.toNat 0 ctx

end ArchitectOrchestrator

namespace ApprovalOracle

/-- Looking up the key just written into the rule map finds its value. -/
theorem rulesGet_set_self (rules : List (String × Bool)) (k : String) (v : Bool) :
    rulesGet (rulesSet rules k v) k = some v := by
  simp [rulesGet, rulesSet]

/-- Shared helper: a `decide` call whose generalized pattern is cached
returns the cached boolean as a "Cached rule" decision, leaves the state
untouched and never consults the adjudicator. -/
theorem decide_cached_eq (st : OracleState) (req : ApprovalRequest)
    (call : AdjudicatorCall) (b : Bool)
    (h : rulesGet st.persistedRules (extractPattern req) = some b) :
    decide st req call = ⟨⟨b, "always", "Cached rule"⟩, st, false⟩ := by
  unfold decide
  simp [h]

/-- Shared helper: when a `decide` call returns a decision with persistence
"always", the pattern is cached with the decision's boolean afterwards. -/
theorem decide_persist_always_cached (st : OracleState) (req : ApprovalRequest)
    (call : AdjudicatorCall)
    (h : (decide st req call).decision.persist = "always") :
    rulesGet (decide st req call).state.persistedRules (extractPattern req) =
      some (decide st req call).decision.allow := by
  unfold decide at h ⊢
  rcases hres : rulesGet st.persistedRules (extractPattern req) with _ | b
  · simp only [hres] at h ⊢
    by_cases hd : st.instantDeny.any (fun m => m.test (literalOf req)) = true
    · simp [hd, rulesGet_set_self]
    · simp only [Bool.not_eq_true] at hd
      by_cases ha : st.instantAllow.any (fun m => m.test (literalOf req)) = true
      · simp [hd, ha, rulesGet_set_self]
      · simp only [Bool.not_eq_true] at ha
        cases call with
        | error => simp [hd, ha, askOpus] at h
        | response raw =>
          simp only [hd, ha, askOpus, Bool.false_eq_true, if_false] at h ⊢
          simp [h, rulesGet_set_self]
  · simp [hres]

end ApprovalOracle

/-- C1: For every approval request whose generalized pattern is not in the
decision cache and whose literal `action:target` matches both some deny
matcher and some allow matcher, `decide` returns the blocked decision
`allow = false`, `persist = "always"`, `reasoning = "Blocked pattern"`,
because the deny list is evaluated before the allow list. -/
theorem decide_deny_precedence (st : ApprovalOracle.OracleState)
    (req : ApprovalOracle.ApprovalRequest) (call : ApprovalOracle.AdjudicatorCall)
    (hcache : ApprovalOracle.rulesGet st.persistedRules
      (ApprovalOracle.extractPattern req) = none)
    (hdeny : st.instantDeny.any
      (fun m => m.test (ApprovalOracle.literalOf req)) = true)
    (hallow : st.instantAllow.any
      (fun m => m.test (ApprovalOracle.literalOf req)) = true) :
    (ApprovalOracle.decide st req call).decision =
      ⟨false, "always", "Blocked pattern"⟩ := by
  unfold ApprovalOracle.decide
  simp [hcache, hdeny]

/-- Witness for C1: on a fresh default oracle, the request
`write /src/.ssh/k` has an uncached pattern, its literal matches a deny
matcher (`/^write:.*\/\.ssh\//`) and an allow matcher
(`/^write:.*\/src\//`), and `decide` blocks it. -/
theorem decide_deny_precedence_witness :
    (ApprovalOracle.mkOracle [] []).instantDeny.any
      (fun m => m.test (ApprovalOracle.literalOf ⟨"write", "/src/.ssh/k", "c"⟩)) = true ∧
    (ApprovalOracle.mkOracle [] []).instantAllow.any
      (fun m => m.test (ApprovalOracle.literalOf ⟨"write", "/src/.ssh/k", "c"⟩)) = true ∧
    (ApprovalOracle.decide (ApprovalOracle.mkOracle [] [])
      ⟨"write", "/src/.ssh/k", "c"⟩ .error).decision =
      ⟨false, "always", "Blocked pattern"⟩ :=
  ⟨by decide, by decide,
   decide_deny_precedence (ApprovalOracle.mkOracle [] [])
     ⟨"write", "/src/.ssh/k", "c"⟩ .error (by decide) (by decide) (by decide)⟩

/-- C10: Once a boolean is cached for some pattern, every later `decide`
call on a request generalizing to that pattern returns the cached boolean
with `persist = "always"` and `reasoning = "Cached rule"`, leaves the state
unchanged and consults no matcher list and no adjudicator: the result is
the same for every deny/allow list, including ones whose matchers would
have matched the literal target the other way. -/
theorem decide_cached_rule_shadows_matchers (st : ApprovalOracle.OracleState)
    (req : ApprovalOracle.ApprovalRequest) (call : ApprovalOracle.AdjudicatorCall)
    (b : Bool)
    (hcache : ApprovalOracle.rulesGet st.persistedRules
      (ApprovalOracle.extractPattern req) = some b) :
    ApprovalOracle.decide st req call =
      ⟨⟨b, "always", "Cached rule"⟩, st, false⟩ :=
  ApprovalOracle.decide_cached_eq st req call b hcache

/-- Witness for C10: with `write:/project/src/*.ts ↦ false` cached, the
request `write /project/src/app.ts` — whose literal matches an allow
matcher — is still answered `allow = false` from the cache. -/
theorem decide_cached_rule_shadows_matchers_witness :
    ApprovalOracle.rulesGet [("write:/project/src/*.ts", false)]
      (ApprovalOracle.extractPattern ⟨"write", "/project/src/app.ts", "c"⟩) =
      some false ∧
    (ApprovalOracle.mkOracle [] []).instantAllow.any
      (fun m => m.test (ApprovalOracle.literalOf ⟨"write", "/project/src/app.ts", "c"⟩)) = true ∧
    ApprovalOracle.decide
      ⟨[("write:/project/src/*.ts", false)],
       ApprovalOracle.INSTANT_DENY, ApprovalOracle.INSTANT_ALLOW⟩
      ⟨"write", "/project/src/app.ts", "c"⟩ .error =
      ⟨⟨false, "always", "Cached rule"⟩,
       ⟨[("write:/project/src/*.ts", false)],
        ApprovalOracle.INSTANT_DENY, ApprovalOracle.INSTANT_ALLOW⟩, false⟩ :=
  ⟨by decide, by decide,
   decide_cached_rule_shadows_matchers
     ⟨[("write:/project/src/*.ts", false)],
      ApprovalOracle.INSTANT_DENY, ApprovalOracle.INSTANT_ALLOW⟩
     ⟨"write", "/project/src/app.ts", "c"⟩ .error false (by decide)⟩

/-- C2: When a request reaches adjudicator escalation (pattern uncached,
no fast-path match) and the adjudicator call throws or its response fails
to parse, `decide` returns an allow-once decision whose reasoning states
the failure, and the oracle state — in particular the decision cache — is
exactly what it was before the call.  (`decide` is a total function here,
so the failure is by construction not propagated.) -/
theorem decide_fail_open (st : ApprovalOracle.OracleState)
    (req : ApprovalOracle.ApprovalRequest) (call : ApprovalOracle.AdjudicatorCall)
    (hcache : ApprovalOracle.rulesGet st.persistedRules
      (ApprovalOracle.extractPattern req) = none)
    (hdeny : st.instantDeny.any
      (fun m => m.test (ApprovalOracle.literalOf req)) = false)
    (hallow : st.instantAllow.any
      (fun m => m.test (ApprovalOracle.literalOf req)) = false)
    (hfail : call = .error ∨
      call = .response none ∨
      ∃ p : ApprovalOracle.RawDecision,
        call = .response (some p) ∧ p.allow = none) :
    (ApprovalOracle.decide st req call).decision.allow = true ∧
    (ApprovalOracle.decide st req call).decision.persist = "once" ∧
    ((ApprovalOracle.decide st req call).decision.reasoning =
        "API error, allowing once" ∨
     (ApprovalOracle.decide st req call).decision.reasoning =
        "Parse failed, allowing once") ∧
    (ApprovalOracle.decide st req call).state = st := by
  unfold ApprovalOracle.decide
  simp only [hcache, hdeny, hallow, Bool.false_eq_true, if_false]
  rcases hfail with h | h | ⟨p, h, hp⟩ <;> subst h
  · simp [ApprovalOracle.askOpus]
  · simp [ApprovalOracle.askOpus, ApprovalOracle.parseResponse]
  · simp [ApprovalOracle.askOpus, ApprovalOracle.parseResponse, hp]

/-- Witness for C2: the delete request `/tmp/data.bin` matches no fast-path
rule on a fresh default oracle; a throwing adjudicator yields the fail-open
decision and the state is unchanged. -/
theorem decide_fail_open_witness :
    ApprovalOracle.rulesGet (ApprovalOracle.mkOracle [] []).persistedRules
      (ApprovalOracle.extractPattern ⟨"delete", "/tmp/data.bin", "c"⟩) = none ∧
    (ApprovalOracle.decide (ApprovalOracle.mkOracle [] [])
      ⟨"delete", "/tmp/data.bin", "c"⟩ .error).decision.allow = true ∧
    (ApprovalOracle.decide (ApprovalOracle.mkOracle [] [])
      ⟨"delete", "/tmp/data.bin", "c"⟩ .error).decision.persist = "once" ∧
    (ApprovalOracle.decide (ApprovalOracle.mkOracle [] [])
      ⟨"delete", "/tmp/data.bin", "c"⟩ .error).state =
      ApprovalOracle.mkOracle [] [] :=
  have h := decide_fail_open (ApprovalOracle.mkOracle [] [])
    ⟨"delete", "/tmp/data.bin", "c"⟩ .error (by decide) (by decide) (by decide)
    (Or.inl rfl)
  ⟨by decide, h.1, h.2.1, h.2.2.2⟩

/-- C3: the pattern generalization is NOT idempotent.  The port rewrite
`.replace(/:\d+/, ":*")` is non-global, so a target with two `:digits`
occurrences keeps the second one, and re-generalizing the already
generalized target `a:*:2` rewrites it again to `a:*:*`.  This theorem
evaluates `extractPattern` at the failing input and at its own output. -/
theorem extractPattern_not_idempotent_at_colon_digits :
    ApprovalOracle.extractPattern ⟨"read", "a:1:2", ""⟩ = "read:a:*:2" ∧
    ApprovalOracle.extractPattern ⟨"read", "a:*:2", ""⟩ = "read:a:*:*" ∧
    ("a:*:2" : String) ≠ "a:*:*" :=
  ⟨by decide, by decide, by decide⟩

/-- Counterexample to C4 as stated: two `decide` calls with the same
request (hence the same generalized pattern) on a fresh default oracle,
where the adjudicator answers `persist = "once"`, invoke the adjudicator
twice — the first answer is not cached, so the second call escalates
again.  "At most once combined regardless of the persistence scope" is
therefore false. -/
theorem decide_cache_idempotence_counterexample :
    (ApprovalOracle.decide (ApprovalOracle.mkOracle [] [])
      ⟨"delete", "/tmp/data.bin", "c"⟩
      (.response (some ⟨some true, some "once", some "ok"⟩))).askedAdjudicator
      = true ∧
    (ApprovalOracle.decide
      (ApprovalOracle.decide (ApprovalOracle.mkOracle [] [])
        ⟨"delete", "/tmp/data.bin", "c"⟩
        (.response (some ⟨some true, some "once", some "ok"⟩))).state
      ⟨"delete", "/tmp/data.bin", "c"⟩
      (.response (some ⟨some true, some "once", some "ok"⟩))).askedAdjudicator
      = true :=
  ⟨by decide, by decide⟩

/-- C4 (amended): two `decide` calls whose targets generalize to the same
pattern invoke the adjudicator at most once combined, provided the first
call's decision carries persistence "always" (which covers every fast-path
and cached answer, and an adjudicator answer exactly when the adjudicator
chose "always"): the first call then leaves the pattern cached, so the
second call is answered from the cache and never escalates. -/
theorem decide_cache_idempotence_amended (st : ApprovalOracle.OracleState)
    (req1 req2 : ApprovalOracle.ApprovalRequest)
    (call1 call2 : ApprovalOracle.AdjudicatorCall)
    (hp : ApprovalOracle.extractPattern req1 = ApprovalOracle.extractPattern req2)
    (hpersist : (ApprovalOracle.decide st req1 call1).decision.persist = "always") :
    (ApprovalOracle.decide (ApprovalOracle.decide st req1 call1).state
      req2 call2).askedAdjudicator = false := by
  have hc := ApprovalOracle.decide_persist_always_cached st req1 call1 hpersist
  rw [hp] at hc
  rw [ApprovalOracle.decide_cached_eq _ req2 call2 _ hc]

/-- Witness for C4 (amended): the Scenario-A request is answered by the
allow fast path with persistence "always"; a second call with the same
target does not consult the adjudicator. -/
theorem decide_cache_idempotence_amended_witness :
    (ApprovalOracle.decide (ApprovalOracle.mkOracle [] [])
      ⟨"write", "/project/src/app.ts", "c"⟩ .error).decision.persist = "always" ∧
    (ApprovalOracle.decide
      (ApprovalOracle.decide (ApprovalOracle.mkOracle [] [])
        ⟨"write", "/project/src/app.ts", "c"⟩ .error).state
      ⟨"write", "/project/src/app.ts", "c"⟩ .error).askedAdjudicator = false :=
  ⟨by decide,
   decide_cache_idempotence_amended (ApprovalOracle.mkOracle [] [])
     ⟨"write", "/project/src/app.ts", "c"⟩ ⟨"write", "/project/src/app.ts", "c"⟩
     .error .error rfl (by decide)⟩

/-- C9 (Scenario A): on a freshly constructed oracle with default rules,
`decide` on `write /project/src/app.ts` returns
`{allow: true, persist: "always", reasoning: "Safe pattern"}` without
consulting the adjudicator (shown with an adjudicator that would throw if
it were consulted). -/
theorem decide_scenario_a :
    (ApprovalOracle.decide (ApprovalOracle.mkOracle [] [])
      ⟨"write", "/project/src/app.ts", "..."⟩ .error).decision =
      ⟨true, "always", "Safe pattern"⟩ ∧
    (ApprovalOracle.decide (ApprovalOracle.mkOracle [] [])
      ⟨"write", "/project/src/app.ts", "..."⟩ .error).askedAdjudicator = false :=
  ⟨by decide, by decide⟩

namespace ArchitectOrchestrator

/-- Shared helper: anything that is an infix of a list is an infix of that
list with more prepended. -/
theorem isInfix_append_of_isInfix {α : Type} (s : List α) {l t : List α}
    (h : List.IsInfix l t) : List.IsInfix l (s ++ t) := by
  obtain ⟨u, v, huv⟩ := h
  exact ⟨s ++ u, v, by rw [← huv]; simp [List.append_assoc]⟩

end ArchitectOrchestrator

/-- C5: the engine does not clamp the iteration budget.  With
`maxIterations = 0` (or any negative value) the `while` guard fails
immediately: `run` executes zero Planning/Implementing/Evaluating cycles,
yields only the max-iterations update with `iterations = 0` and terminates
in the failed phase — for every environment, so no clamping to a positive
range happens anywhere in the engine. -/
theorem run_zero_budget_no_cycles (env : ArchitectOrchestrator.RoleEnv)
    (task ctx : String) :
    ArchitectOrchestrator.run env task 0 ctx =
      ⟨[.maxIterationsReached 0], "failed", 0⟩ ∧
    ArchitectOrchestrator.run env task (-1) ctx =
      ⟨[.maxIterationsReached 0], "failed", 0⟩ :=
  ⟨rfl, rfl⟩

/-- C6: if the first iteration's evaluation satisfies the convergence
check (trimmed, upper-cased text starting with "APPROVED"), `run` with any
positive budget and no architecture analyzer yields exactly one
Planning/Implementing/Evaluating cycle of updates followed by the
completion update with `iterations = 1`, ends in the complete phase, and
emits nothing further. -/
theorem run_converges_first_pass (env : ArchitectOrchestrator.RoleEnv)
    (task ctx : String) (maxIter : Int)
    (hm : 0 < maxIter) (han : env.analyzer = none)
    (happ : ArchitectOrchestrator.isComplete
      (ArchitectOrchestrator.evalOf env task ctx).1 = true) :
    ArchitectOrchestrator.run env task maxIter ctx =
      ⟨ArchitectOrchestrator.cycleUpdates env task ctx 1 ++ [.complete 1],
       "complete", 1⟩ := by
  obtain ⟨n, hn⟩ : ∃ n, maxIter.toNat = n + 1 := ⟨maxIter.toNat - 1, by omega⟩
  unfold ArchitectOrchestrator.run
  rw [han, hn]
  simp [ArchitectOrchestrator.runLoop, happ]

/-- Witness for C6: a reviewer that approves immediately makes `run`
produce one cycle and the completion update. -/
theorem run_converges_first_pass_witness :
    (0 : Int) < 5 ∧
    ArchitectOrchestrator.run
      ⟨fun _ _ => ("P", ""), fun _ _ => "I",
       fun _ _ _ _ => ("APPROVED: ok", ""), none⟩ "t" 5 "c" =
      ⟨[.phase "planning" 1, .plan "P" "", .phase "implementing" 1,
        .implementation "I", .phase "evaluating" 1,
        .evaluation "APPROVED: ok" "", .complete 1], "complete", 1⟩ :=
  ⟨by decide, by
    rw [run_converges_first_pass _ "t" "c" 5 (by decide) rfl (by decide)]
    rfl⟩

/-- C7: with a reviewer that never approves and `maxIterations = 3`, `run`
(with no architecture analyzer) yields exactly three full
Planning/Implementing/Evaluating cycles — each over the context accumulated
so far — followed by the max-iterations update with `iterations = 3`, and
ends in the failed phase.  (`run` is a total function, so this terminal
outcome raises no error.) -/
theorem run_budget_exhaustion_three (env : ArchitectOrchestrator.RoleEnv)
    (task ctx : String)
    (han : env.analyzer = none)
    (hnever : ∀ t p i c, ArchitectOrchestrator.isComplete (env.evalF t p i c).1 = false) :
    ArchitectOrchestrator.run env task 3 ctx =
      ⟨ArchitectOrchestrator.cycleUpdates env task ctx 1 ++
        (ArchitectOrchestrator.cycleUpdates env task
          (ArchitectOrchestrator.nextCtx env task ctx) 2 ++
          (ArchitectOrchestrator.cycleUpdates env task
            (ArchitectOrchestrator.nextCtx env task
              (ArchitectOrchestrator.nextCtx env task ctx)) 3 ++
            [.maxIterationsReached 3])),
       "failed", 3⟩ := by
  have h1 : ∀ c, ArchitectOrchestrator.isComplete
      (ArchitectOrchestrator.evalOf env task c).1 = false :=
    fun c => hnever task _ _ c
  unfold ArchitectOrchestrator.run
  rw [han]
  show ArchitectOrchestrator.runLoop env task 3 0 ctx = _
  simp [ArchitectOrchestrator.runLoop, h1]

/-- Witness for C7: a reviewer that always demands revision exhausts the
budget of 3. -/
theorem run_budget_exhaustion_three_witness :
    ArchitectOrchestrator.run
      ⟨fun _ _ => ("P", ""), fun _ _ => "I",
       fun _ _ _ _ => ("REVISION NEEDED: x", ""), none⟩ "t" 3 "c" =
      ⟨ArchitectOrchestrator.cycleUpdates
          ⟨fun _ _ => ("P", ""), fun _ _ => "I",
           fun _ _ _ _ => ("REVISION NEEDED: x", ""), none⟩ "t" "c" 1 ++
        (ArchitectOrchestrator.cycleUpdates
          ⟨fun _ _ => ("P", ""), fun _ _ => "I",
           fun _ _ _ _ => ("REVISION NEEDED: x", ""), none⟩ "t"
          (ArchitectOrchestrator.nextCtx
            ⟨fun _ _ => ("P", ""), fun _ _ => "I",
             fun _ _ _ _ => ("REVISION NEEDED: x", ""), none⟩ "t" "c") 2 ++
          (ArchitectOrchestrator.cycleUpdates
            ⟨fun _ _ => ("P", ""), fun _ _ => "I",
             fun _ _ _ _ => ("REVISION NEEDED: x", ""), none⟩ "t"
            (ArchitectOrchestrator.nextCtx
              ⟨fun _ _ => ("P", ""), fun _ _ => "I",
               fun _ _ _ _ => ("REVISION NEEDED: x", ""), none⟩ "t"
              (ArchitectOrchestrator.nextCtx
                ⟨fun _ _ => ("P", ""), fun _ _ => "I",
                 fun _ _ _ _ => ("REVISION NEEDED: x", ""), none⟩ "t" "c")) 3 ++
            [.maxIterationsReached 3])),
       "failed", 3⟩ :=
  run_budget_exhaustion_three
    ⟨fun _ _ => ("P", ""), fun _ _ => "I",
     fun _ _ _ _ => ("REVISION NEEDED: x", ""), none⟩ "t" "c" rfl
    (fun _ _ _ _ =>
      (by decide : ArchitectOrchestrator.isComplete "REVISION NEEDED: x" = false))

/-- C8: in an iteration that does not converge, the loop recurses with the
context produced by `updateContext`, after yielding the iteration's
updates; that next context extends the previous context (the old context
is a prefix — appended to, never truncated) and contains the iteration's
implementation text and evaluation text verbatim as contiguous
substrings. -/
theorem runLoop_context_accumulation (env : ArchitectOrchestrator.RoleEnv)
    (task ctx : String) (fuel : Nat) (cur : Int)
    (hne : ArchitectOrchestrator.isComplete
      (ArchitectOrchestrator.evalOf env task ctx).1 = false) :
    (ArchitectOrchestrator.runLoop env task (fuel + 1) cur ctx).updates =
      ArchitectOrchestrator.cycleUpdates env task ctx (cur + 1) ++
        (ArchitectOrchestrator.runLoop env task fuel (cur + 1)
          (ArchitectOrchestrator.nextCtx env task ctx)).updates ∧
    List.IsPrefix ctx.data (ArchitectOrchestrator.nextCtx env task ctx).data ∧
    List.IsInfix (ArchitectOrchestrator.implOf env task ctx).data
      (ArchitectOrchestrator.nextCtx env task ctx).data ∧
    List.IsInfix ((ArchitectOrchestrator.evalOf env task ctx).1).data
      (ArchitectOrchestrator.nextCtx env task ctx).data := by
  refine ⟨by simp [ArchitectOrchestrator.runLoop, hne], ?_, ?_, ?_⟩
  all_goals
    simp only [ArchitectOrchestrator.nextCtx, ArchitectOrchestrator.updateContext,
      String.data_append, List.append_assoc]
  · exact List.prefix_append _ _
  · apply ArchitectOrchestrator.isInfix_append_of_isInfix
    apply ArchitectOrchestrator.isInfix_append_of_isInfix
    exact (List.prefix_append _ _).isInfix
  · apply ArchitectOrchestrator.isInfix_append_of_isInfix
    apply ArchitectOrchestrator.isInfix_append_of_isInfix
    apply ArchitectOrchestrator.isInfix_append_of_isInfix
    apply ArchitectOrchestrator.isInfix_append_of_isInfix
    exact (List.prefix_append _ _).isInfix

/-- Witness for C8: with a non-approving evaluation "E", one loop unfolding
yields the cycle and recurses on the accumulated context, which extends
"c" and contains the implementation "I" and the feedback "E". -/
theorem runLoop_context_accumulation_witness :
    ArchitectOrchestrator.isComplete
      (ArchitectOrchestrator.evalOf
        ⟨fun _ _ => ("P", ""), fun _ _ => "I", fun _ _ _ _ => ("E", ""), none⟩
        "t" "c").1 = false ∧
    ((ArchitectOrchestrator.runLoop
        ⟨fun _ _ => ("P", ""), fun _ _ => "I", fun _ _ _ _ => ("E", ""), none⟩
        "t" (0 + 1) 0 "c").updates =
      ArchitectOrchestrator.cycleUpdates
        ⟨fun _ _ => ("P", ""), fun _ _ => "I", fun _ _ _ _ => ("E", ""), none⟩
        "t" "c" (0 + 1) ++
        (ArchitectOrchestrator.runLoop
          ⟨fun _ _ => ("P", ""), fun _ _ => "I", fun _ _ _ _ => ("E", ""), none⟩
          "t" 0 (0 + 1)
          (ArchitectOrchestrator.nextCtx
            ⟨fun _ _ => ("P", ""), fun _ _ => "I", fun _ _ _ _ => ("E", ""), none⟩
            "t" "c")).updates ∧
    List.IsPrefix ("c" : String).data
      (ArchitectOrchestrator.nextCtx
        ⟨fun _ _ => ("P", ""), fun _ _ => "I", fun _ _ _ _ => ("E", ""), none⟩
        "t" "c").data ∧
    List.IsInfix (ArchitectOrchestrator.implOf
        ⟨fun _ _ => ("P", ""), fun _ _ => "I", fun _ _ _ _ => ("E", ""), none⟩
        "t" "c").data
      (ArchitectOrchestrator.nextCtx
        ⟨fun _ _ => ("P", ""), fun _ _ => "I", fun _ _ _ _ => ("E", ""), none⟩
        "t" "c").data ∧
    List.IsInfix ((ArchitectOrchestrator.evalOf
        ⟨fun _ _ => ("P", ""), fun _ _ => "I", fun _ _ _ _ => ("E", ""), none⟩
        "t" "c").1).data
      (ArchitectOrchestrator.nextCtx
        ⟨fun _ _ => ("P", ""), fun _ _ => "I", fun _ _ _ _ => ("E", ""), none⟩
        "t" "c").data) :=
  ⟨by decide,
   runLoop_context_accumulation
     ⟨fun _ _ => ("P", ""), fun _ _ => "I", fun _ _ _ _ => ("E", ""), none⟩
     "t" "c" 0 0 (by decide)⟩
